import Mathlib

set_option maxHeartbeats 1000000
set_option maxRecDepth 4000

/-!
Verification development for the parquet bridge of the util package
(src/util/util.go).  The Go functions `GenerateParquet`, `ReadParquet`,
`mapToStructWithTags`, `MapsToStructs` and `StructToMap` are shallowly
embedded below.  Dynamically typed interface values become the inductive
`Value`; the dynamically built struct type becomes a list of tagged
fields; reflection faults (panics) become explicit error values; the
external parquet writer/reader and the file system are modelled by
explicit oracles and event traces so that every control path of the Go
code has a counterpart in the model.
-/

namespace Util

/-- Scalar type tags for dynamically typed record values.  In the Go code a
type is a `reflect.Type` obtained by `reflect.TypeOf` on an interface
value; the batch values are scalars (integer, float, string, bool,
timestamp), so a five-way tag suffices. -/
inductive Ty where
  | int
  | float
  | str
  | bool
  | time
  deriving DecidableEq, Repr

/-- A dynamically typed scalar value (a Go `interface` value).  Float
payloads are carried as opaque bit patterns: the code only stores and
compares them, it never computes with them. -/
inductive Value where
  | vint (i : Int)
  | vfloat (bits : Nat)
  | vstr (s : String)
  | vbool (b : Bool)
  | vtime (unixMillis : Int)
  deriving DecidableEq, Repr

/-- The runtime type of a value, as `reflect.TypeOf` reports it. -/
def Value.ty : Value → Ty
  | .vint _ => .int
  | .vfloat _ => .float
  | .vstr _ => .str
  | .vbool _ => .bool
  | .vtime _ => .time

/-- The zero value of each scalar type (what a freshly allocated struct
field of that type holds before any `Set`). -/
def zeroValue : Ty → Value
  | .int => .vint 0
  | .float => .vfloat 0
  | .str => .vstr ""
  | .bool => .vbool false
  | .time => .vtime 0

/-- The name `reflect.Type.String` prints for each scalar type, used in
the generated parquet struct tag. -/
def tyName : Ty → String
  | .int => "int"
  | .float => "float64"
  | .str => "string"
  | .bool => "bool"
  | .time => "time.Time"

/-- A Record: the `map[string]interface` exchange unit, embedded as an
association list whose order stands for the map iteration order. -/
abbrev Record := List (String × Value)

/-- Character-level worker for `titleCase`: the first cased letter of each
word is uppercased, letters inside a word are lowercased, an underscore
is word-internal (UAX 29 ExtendNumLet, so `event_time` is one word), and
any other non-alphanumeric character ends the current word. -/
def titleChars : Bool → List Char → List Char
  | _, [] => []
  | inWord, c :: cs =>
    if c.isAlphanum then
      (if inWord then c.toLower else c.toUpper) :: titleChars true cs
    else if c = '_' then
      c :: titleChars inWord cs
    else
      c :: titleChars false cs

/-- ASCII model of the `golang.org/x/text` `cases.Title(language.English)`
mapper the Go code applies to every record key: each word is converted to
title case (first letter uppercased, the rest lowercased). -/
def titleCase (s : String) : String :=
  String.mk (titleChars false s.data)

/-- One member of the dynamically generated struct type: normalized name,
scalar type and the struct tag string (`reflect.StructField`). -/
structure StructField where
  name : String
  ty : Ty
  tag : String
  deriving DecidableEq, Repr

/-- The tag string `mapToStructWithTags` attaches to a field: parquet name,
resolved type name, the fixed PLAIN_DICTIONARY encoding hint, and a json
tag carrying the original key. -/
def mkTag (key : String) (t : Ty) : String :=
  "parquet:\"name=" ++ key ++ ", type=" ++ tyName t ++
    ", encoding=PLAIN_DICTIONARY\" json:\"" ++ key ++ "\""

/-- Go `mapToStructWithTags`: builds the struct field list from the sample
record, title-casing each key and recording the runtime type of its
value together with the serialization tag. -/
def mapToStructWithTags (sampleMap : Record) : List StructField :=
  sampleMap.map fun kv => ⟨titleCase kv.1, kv.2.ty, mkTag kv.1 kv.2.ty⟩

/-- First field with the given name (`reflect.Type.FieldByName`). -/
def findField : List StructField → String → Option StructField
  | [], _ => none
  | f :: rest, n => if f.name = n then some f else findField rest n

/-- One field of a materialized row instance: member name, declared type
and current value. -/
structure RowField where
  name : String
  ty : Ty
  val : Value
  deriving DecidableEq, Repr

/-- A materialized row instance of the dynamic struct type. -/
abbrev Row := List RowField

/-- A freshly allocated struct instance: every member holds the zero value
of its declared type (`reflect.New(structType).Elem()`). -/
def zeroRow (schema : List StructField) : Row :=
  schema.map fun f => ⟨f.name, f.ty, zeroValue f.ty⟩

/-- Declared type of the first member with the given name, if any
(`structInstance.FieldByName(n)` followed by `field.Type()`). -/
def rowFindTy : Row → String → Option Ty
  | [], _ => none
  | f :: rest, n => if f.name = n then some f.ty else rowFindTy rest n

/-- Current value of the first member with the given name, if any. -/
def rowLookup : Row → String → Option Value
  | [], _ => none
  | f :: rest, n => if f.name = n then some f.val else rowLookup rest n

/-- `FieldByName(n).IsValid()`: the row type has a member named `n`. -/
def hasField (row : Row) (n : String) : Bool :=
  (rowFindTy row n).isSome

/-- Go `field.Set` guarded by the type comparison of `GenerateParquet`:
the first member named `n` receives `v` when the runtime type of `v`
equals the declared member type, otherwise the member is left unchanged. -/
def setField : Row → String → Value → Row
  | [], _, _ => []
  | f :: rest, n, v =>
    if f.name = n then
      (if v.ty = f.ty then ⟨f.name, f.ty, v⟩ else f) :: rest
    else
      f :: setField rest n v

/-- Observable log output of the materialization loop.  The only print in
the Go loop is `Invalid field` for a key whose normalized name is not a
member of the row type; a type mismatch prints nothing. -/
inductive LogEv where
  | invalidField (key : String)
  deriving DecidableEq, Repr

/-- The per-record loop body of `GenerateParquet` (lines 254-268): for each
key/value pair, the key is title-cased, a valid member of the matching
runtime type is overwritten, an invalid member name is logged and
skipped. -/
def populateAux : Row → List LogEv → Record → Row × List LogEv
  | row, logs, [] => (row, logs)
  | row, logs, (k, v) :: rest =>
    if hasField row (titleCase k) then
      populateAux (setField row (titleCase k) v) logs rest
    else
      populateAux row (logs ++ [.invalidField k]) rest

/-- Materialization of one record against the inferred schema: a fresh
zero-valued struct instance populated by the `GenerateParquet` loop. -/
def populateStruct (schema : List StructField) (r : Record) : Row × List LogEv :=
  populateAux (zeroRow schema) [] r

/-- Reflection panics of the Go runtime that the code can trigger:
calling `Type` on the zero `reflect.Value` (dereferencing a nil struct
pointer), calling `NumField` on a non-struct value, calling `Set` on the
zero `reflect.Value` (a `FieldByName` miss in `MapsToStructs`), and
assigning a value of the wrong type. -/
inductive ReflectPanic where
  | typeOnZeroValue
  | numFieldOnNonStruct
  | setOnZeroValue (key : String)
  | notAssignable (key : String)
  deriving DecidableEq, Repr

/-- The per-record loop of Go `MapsToStructs` (lines 333-336): each key is
looked up RAW (no title casing) with `FieldByName` and the value is
written with `Set` without any validity or type guard, so a missing
member or a type mismatch is a reflection panic. -/
def rawSetLoop : Row → Record → Except ReflectPanic Row
  | row, [] => .ok row
  | row, (k, v) :: rest =>
    match rowFindTy row k with
    | none => .error (.setOnZeroValue k)
    | some t =>
      if v.ty = t then rawSetLoop (setField row k v) rest
      else .error (.notAssignable k)

/-- Go `MapsToStructs`: infers the struct type from the sample map and
materializes every record through the unguarded `rawSetLoop`. -/
def MapsToStructs (sampleMap : Record) (data : List Record) :
    Except ReflectPanic (List Row) :=
  let structType := mapToStructWithTags sampleMap
  data.mapM fun r => rawSetLoop (zeroRow structType) r

/-- Errors the parquet functions can return. -/
inductive Err where
  | emptyData
  | emptySchema
  | createErr (msg : String)
  | writeErr (msg : String)
  | openErr (msg : String)
  | notSlicePtr
  | readErr (msg : String)
  deriving DecidableEq, Repr

/-- Result of a call in the model: the Go `error` return.  A recovered
panic makes the Go function return the zero value of the `error` result,
that is a nil error, hence `ok`. -/
inductive RetVal where
  | ok
  | error (e : Err)
  deriving DecidableEq, Repr

/-- Observable file/writer events of `GenerateParquet`, in program order:
`os.Create` truncating or creating the destination, one event per row
write, `writer.Close`, `f.Close`. -/
inductive Ev where
  | fileCreated
  | wroteRow (i : Nat)
  | writerClosed
  | fileClosed
  deriving DecidableEq, Repr

/-- Failure behaviour of the external parquet writer for one run: an
optional underlying write error per row index and an optional error from
`writer.Close` (the flush). -/
structure WriterOracle where
  writeFail : Nat → Option String
  closeFail : Option String

/-- An oracle under which the external writer never fails. -/
def noFailOracle : WriterOracle := ⟨fun _ => none, none⟩

/-- The row-write events of a contiguous run of `k` successful writes
starting at index `i`. -/
def wroteEvents : Nat → Nat → List Ev
  | _, 0 => []
  | i, k + 1 => .wroteRow i :: wroteEvents (i + 1) k

/-- The write loop of `GenerateParquet` (lines 283-287): rows are written
one at a time in order and the first underlying write error aborts the
loop.  Modelled from the spec: writing with an empty schema (empty
sample record) fails, because the external writer cannot infer a parquet
schema with no columns; the exact failure of the parquet-go writer is
outside src/, and the spec fixes it as a schema inference error. -/
def writeLoop (oracle : WriterOracle) (schemaEmpty : Bool) :
    Nat → List Row → List Ev × Option Err
  | _, [] => ([], none)
  | i, _ :: rest =>
    if schemaEmpty then ([], some .emptySchema)
    else
      match oracle.writeFail i with
      | some m => ([], some (.writeErr m))
      | none =>
        let out := writeLoop oracle schemaEmpty (i + 1) rest
        (.wroteRow i :: out.1, out.2)

/-- Full observable outcome of one `GenerateParquet` call: returned error,
file/writer event trace, printed logs, and the row sequence a later
reader decodes from the destination file (`none` when the write did not
complete durably). -/
structure GenResult where
  ret : RetVal
  events : List Ev
  logs : List LogEv
  fileContent : Option (List Row)

/-- The phase of `GenerateParquet` after `os.Create` succeeded (lines
280-292): rows are written in order until the first failure; a failing
row write returns its error immediately, leaving both the writer and the
file unclosed (the Go function registers no defer); on success the writer
is closed first and the file second, both results discarded with `_ =`,
and the content is durable exactly when the discarded close succeeded. -/
def writePhase (oracle : WriterOracle) (schemaEmpty : Bool) (rows : List Row)
    (logs : List LogEv) : GenResult :=
  let out := writeLoop oracle schemaEmpty 0 rows
  match out.2 with
  | some e => ⟨.error e, .fileCreated :: out.1, logs, none⟩
  | none =>
    ⟨.ok, .fileCreated :: out.1 ++ [.writerClosed, .fileClosed], logs,
      if oracle.closeFail = none then some rows else none⟩

/-- Go `GenerateParquet` (lines 236-293).  An empty batch returns the
`empty data slice` error before any file is touched.  Otherwise the
struct type is inferred from the first record, all records are
materialized (printing `Invalid field` for unknown keys), the file is
created, and the write phase runs. -/
def GenerateParquet (oracle : WriterOracle) (createFail : Option String)
    (data : List Record) : GenResult :=
  match data with
  | [] => ⟨.error .emptyData, [], [], none⟩
  | sample :: rest =>
    let structType := mapToStructWithTags sample
    let rows := (sample :: rest).map fun r => (populateStruct structType r).1
    let logs := ((sample :: rest).map fun r => (populateStruct structType r).2).flatten
    match createFail with
    | some m => ⟨.error (.createErr m), [], logs, none⟩
    | none => writePhase oracle structType.isEmpty rows logs

/-- One decoding step the external parquet reader performs for
`pf.Read`: a decoded row, end of stream, a decode error, or a runtime
fault raised mid-decode. -/
inductive ReadStep where
  | row (r : Row)
  | eof
  | err (m : String)
  | panic (m : String)
  deriving DecidableEq, Repr

/-- A stream with no mid-decode fault. -/
def stepIsPanicFree : ReadStep → Bool
  | .panic _ => false
  | _ => true

def streamNoPanic (s : List ReadStep) : Bool :=
  s.all stepIsPanicFree

/-- Full observable outcome of one `ReadParquet` call: returned error,
rows appended into the caller slice, how many times the parquet reader
and the file handle were closed, and whether a fault escaped the call. -/
structure ReadResult where
  ret : RetVal
  rows : List Row
  readerCloses : Nat
  fileCloses : Nat
  panicPropagated : Bool
  deriving Repr

/-- The read loop of `ReadParquet` (lines 216-232): rows accumulate until
end of stream (`ok`), a decode error (returned), or a fault (third
component true). -/
def readLoop : List ReadStep → List Row × RetVal × Bool
  | [] => ([], .ok, false)
  | .eof :: _ => ([], .ok, false)
  | .err m :: _ => ([], .error (.readErr m), false)
  | .panic _ :: _ => ([], .ok, true)
  | .row r :: rest =>
    let out := readLoop rest
    (r :: out.1, out.2.1, out.2.2)

/-- Go `ReadParquet` (lines 186-235), with the defer stack replayed
faithfully.  After `parquet.NewReader` succeeds the registered defers run
last-in-first-out on exit: `pf.Close()`, `rf.Close()`, then the recover
function.  On the normal and error exits the recover function sees no
panic, so each resource is closed once.  When decoding panics, the two
closing defers run while unwinding, then the recover function recovers
the panic and closes `pf` a second time; the recovered function returns
the zero value of its `error` result, so the caller sees a nil error and
the partially filled slice.  When `parquet.NewReader` itself panics (for
example on a malformed file) only the recover defer is registered and
`pf` is still nil, so nothing is closed and the call again returns nil. -/
def ReadParquet (openFail : Option String) (newReaderPanics : Bool)
    (validSlicePtr : Bool) (stream : List ReadStep) : ReadResult :=
  match openFail with
  | some m => ⟨.error (.openErr m), [], 0, 0, false⟩
  | none =>
    if newReaderPanics then ⟨.ok, [], 0, 0, false⟩
    else if validSlicePtr = false then ⟨.error .notSlicePtr, [], 1, 1, false⟩
    else
      let out := readLoop stream
      if out.2.2 then ⟨.ok, out.1, 2, 1, false⟩
      else ⟨out.2.1, out.1, 1, 1, false⟩

/-- Write-then-read composition for the round-trip property.  The parquet
file is modelled at its interface (spec section 6): a completed file
decodes to exactly the row sequence that was written, followed by end of
stream; a file whose write did not complete opens with an error. -/
def roundTrip (data : List Record) : ReadResult :=
  match (GenerateParquet noFailOracle none data).fileContent with
  | some rows => ReadParquet none false true (rows.map ReadStep.row ++ [ReadStep.eof])
  | none => ReadParquet (some "no parquet file written") false true []

/-- A statically typed Go value as `StructToMap` sees it through
reflection: a scalar, a struct with named members, or a pointer
(possibly nil). -/
inductive GoVal where
  | scalar (v : Value)
  | strct (fields : List (String × GoVal))
  | ptr (p : Option GoVal)

/-- A value stored in the map produced by `StructToMap`: either the
member value kept opaquely (`campo.Interface()` of a non-struct member)
or the nested map produced by the recursive call on a struct member. -/
inductive MVal where
  | raw (v : GoVal)
  | record (r : List (String × MVal))

mutual

/-- Map entry for one struct member: a struct member is flattened by the
recursive `StructToMap` call, every other member is stored as is. -/
def flattenMember : GoVal → MVal
  | .strct gs => .record (flattenFields gs)
  | w => .raw w

/-- The member loop of `StructToMap` (lines 522-533), in declaration
order. -/
def flattenFields : List (String × GoVal) → List (String × MVal)
  | [] => []
  | (n, v) :: rest => (n, flattenMember v) :: flattenFields rest

end

/-- The single pointer dereference at the top of `StructToMap`: a nil
pointer leaves the invalid zero `reflect.Value`. -/
def derefOnce : GoVal → Option GoVal
  | .ptr p => p
  | w => some w

/-- Go `StructToMap` (lines 512-536): dereferences a pointer argument
once, then walks the members of the struct.  A nil pointer panics when
`Type` is called on the zero `reflect.Value`; any non-struct argument
panics in `NumField`.  There is no error return in the Go signature, so
the fault is the only failure channel. -/
def StructToMap (s : GoVal) : Except ReflectPanic (List (String × MVal)) :=
  match derefOnce s with
  | none => .error .typeOnZeroValue
  | some (.strct fields) => .ok (flattenFields fields)
  | some _ => .error .numFieldOnNonStruct

/-! Helper lemmas about row instances and the materialization loop. -/

theorem rowFindTy_setField (row : Row) (n : String) (v : Value) (n' : String) :
    rowFindTy (setField row n v) n' = rowFindTy row n' := by
  induction row with
  | nil => rfl
  | cons f rest ih =>
    by_cases h : f.name = n
    · by_cases h2 : v.ty = f.ty <;> simp [setField, h, h2, rowFindTy]
    · simp [setField, h, rowFindTy, ih]

theorem rowLookup_setField_self (row : Row) (n : String) (v : Value) (t : Ty)
    (hty : rowFindTy row n = some t) (hv : v.ty = t) :
    rowLookup (setField row n v) n = some v := by
  induction row with
  | nil => simp [rowFindTy] at hty
  | cons f rest ih =>
    by_cases h : f.name = n
    · simp [rowFindTy, h] at hty
      subst hty
      simp [setField, h, hv, rowLookup]
    · simp [rowFindTy, h] at hty
      simp [setField, h, rowLookup, ih hty]

theorem rowLookup_setField_ne (row : Row) (n : String) (v : Value) (n' : String)
    (h : n' ≠ n) :
    rowLookup (setField row n v) n' = rowLookup row n' := by
  induction row with
  | nil => rfl
  | cons f rest ih =>
    by_cases hf : f.name = n
    · have hf' : f.name ≠ n' := by rw [hf]; exact fun e => h e.symm
      have h' : n ≠ n' := fun e => h e.symm
      by_cases h2 : v.ty = f.ty <;> simp [setField, hf, hf', h2, rowLookup, h']
    · simp [setField, hf, rowLookup, ih]

theorem setField_eq_of_ty_ne (row : Row) (n : String) (v : Value) (t : Ty)
    (hty : rowFindTy row n = some t) (hv : v.ty ≠ t) :
    setField row n v = row := by
  induction row with
  | nil => rfl
  | cons f rest ih =>
    by_cases h : f.name = n
    · simp [rowFindTy, h] at hty
      subst hty
      simp [setField, h, hv]
    · simp [rowFindTy, h] at hty
      simp [setField, h, ih hty]

theorem rowLookup_eq_none (row : Row) (n : String)
    (h : rowFindTy row n = none) :
    rowLookup row n = none := by
  induction row with
  | nil => rfl
  | cons f rest ih =>
    by_cases hf : f.name = n
    · simp [rowFindTy, hf] at h
    · simp [rowFindTy, hf] at h
      simp [rowLookup, hf, ih h]

theorem rowFindTy_zeroRow (schema : List StructField) (n : String) :
    rowFindTy (zeroRow schema) n = (findField schema n).map StructField.ty := by
  induction schema with
  | nil => rfl
  | cons f rest ih =>
    by_cases h : f.name = n
    · simp [zeroRow, rowFindTy, findField, h]
    · simp [zeroRow, rowFindTy, findField, h] at ih ⊢
      simpa using ih

theorem rowLookup_zeroRow (schema : List StructField) (n : String) :
    rowLookup (zeroRow schema) n = (findField schema n).map fun f => zeroValue f.ty := by
  induction schema with
  | nil => rfl
  | cons f rest ih =>
    by_cases h : f.name = n
    · simp [zeroRow, rowLookup, findField, h]
    · simp [zeroRow, rowLookup, findField, h] at ih ⊢
      simpa using ih

theorem populateAux_findTy (r : Record) :
    ∀ (row : Row) (logs : List LogEv) (n : String),
    rowFindTy (populateAux row logs r).1 n = rowFindTy row n := by
  induction r with
  | nil => intro row logs n; rfl
  | cons kv rest ih =>
    intro row logs n
    obtain ⟨k0, v0⟩ := kv
    by_cases hf : hasField row (titleCase k0)
    · simp [populateAux, hf, ih, rowFindTy_setField]
    · simp [populateAux, hf, ih]

theorem populateAux_logs_mem (r : Record) :
    ∀ (row : Row) (logs : List LogEv) (e : LogEv),
    e ∈ logs → e ∈ (populateAux row logs r).2 := by
  induction r with
  | nil => intro row logs e he; simpa [populateAux] using he
  | cons kv rest ih =>
    intro row logs e he
    obtain ⟨k0, v0⟩ := kv
    by_cases hf : hasField row (titleCase k0)
    · simp [populateAux, hf]
      exact ih _ _ _ he
    · simp [populateAux, hf]
      exact ih _ _ _ (by simp [he])

theorem populateAux_lookup_keep (r : Record) :
    ∀ (row : Row) (logs : List LogEv) (n : String) (v : Value),
    rowFindTy row n = some v.ty →
    rowLookup row n = some v →
    (∀ kv ∈ r, titleCase kv.1 = n → kv.2 = v) →
    rowLookup (populateAux row logs r).1 n = some v := by
  induction r with
  | nil => intro row logs n v _ h2 _; simpa [populateAux] using h2
  | cons kv rest ih =>
    intro row logs n v h1 h2 h3
    obtain ⟨k0, v0⟩ := kv
    by_cases hk : titleCase k0 = n
    · have hv0 : v0 = v := h3 (k0, v0) (List.mem_cons_self _ _) hk
      subst hv0
      have hf : hasField row (titleCase k0) = true := by
        simp [hasField, hk, h1]
      simp [populateAux, hf]
      refine ih _ _ _ _ ?_ ?_ ?_
      · rw [rowFindTy_setField, h1]
      · rw [hk]; exact rowLookup_setField_self row n v0 v0.ty h1 rfl
      · exact fun kv hkv => h3 kv (List.mem_cons_of_mem _ hkv)
    · by_cases hf : hasField row (titleCase k0)
      · simp [populateAux, hf]
        refine ih _ _ _ _ ?_ ?_ ?_
        · rw [rowFindTy_setField, h1]
        · rw [rowLookup_setField_ne row (titleCase k0) v0 n (fun e => hk e.symm), h2]
        · exact fun kv hkv => h3 kv (List.mem_cons_of_mem _ hkv)
      · simp [populateAux, hf]
        exact ih _ _ _ _ h1 h2 (fun kv hkv => h3 kv (List.mem_cons_of_mem _ hkv))

theorem populateAux_lookup_set (r : Record) :
    ∀ (row : Row) (logs : List LogEv) (k : String) (v : Value),
    (k, v) ∈ r →
    (∀ kv ∈ r, titleCase kv.1 = titleCase k → kv.2 = v) →
    rowFindTy row (titleCase k) = some v.ty →
    rowLookup (populateAux row logs r).1 (titleCase k) = some v := by
  induction r with
  | nil => intro row logs k v hm; simp at hm
  | cons kv rest ih =>
    intro row logs k v hm hn hty
    obtain ⟨k0, v0⟩ := kv
    by_cases hk : titleCase k0 = titleCase k
    · have hv0 : v0 = v := hn (k0, v0) (List.mem_cons_self _ _) hk
      subst hv0
      have hf : hasField row (titleCase k0) = true := by
        simp [hasField, hk, hty]
      simp [populateAux, hf]
      refine populateAux_lookup_keep rest _ _ _ _ ?_ ?_ ?_
      · rw [rowFindTy_setField, hty]
      · rw [← hk] at hty ⊢
        exact rowLookup_setField_self row (titleCase k0) v0 v0.ty hty rfl
      · exact fun kv hkv => hn kv (List.mem_cons_of_mem _ hkv)
    · have hm' : (k, v) ∈ rest := by
        rcases List.mem_cons.mp hm with he | hr
        · injection he with h1 h2
          exact absurd (congrArg titleCase h1.symm) hk
        · exact hr
      by_cases hf : hasField row (titleCase k0)
      · simp [populateAux, hf]
        refine ih _ _ _ _ hm' (fun kv hkv => hn kv (List.mem_cons_of_mem _ hkv)) ?_
        rw [rowFindTy_setField, hty]
      · simp [populateAux, hf]
        exact ih _ _ _ _ hm' (fun kv hkv => hn kv (List.mem_cons_of_mem _ hkv)) hty

theorem populateAux_lookup_frozen (r : Record) :
    ∀ (row : Row) (logs : List LogEv) (n : String) (t : Ty),
    rowFindTy row n = some t →
    (∀ kv ∈ r, titleCase kv.1 = n → Value.ty kv.2 ≠ t) →
    rowLookup (populateAux row logs r).1 n = rowLookup row n := by
  induction r with
  | nil => intro row logs n t _ _; rfl
  | cons kv rest ih =>
    intro row logs n t hty hmis
    obtain ⟨k0, v0⟩ := kv
    by_cases hk : titleCase k0 = n
    · have hf : hasField row (titleCase k0) = true := by
        simp [hasField, hk, hty]
      have hne : v0.ty ≠ t := hmis (k0, v0) (List.mem_cons_self _ _) hk
      have hset : setField row (titleCase k0) v0 = row := by
        rw [hk]; exact setField_eq_of_ty_ne row n v0 t hty hne
      simp [populateAux, hf, hset]
      exact ih _ _ _ _ hty (fun kv hkv => hmis kv (List.mem_cons_of_mem _ hkv))
    · by_cases hf : hasField row (titleCase k0)
      · simp [populateAux, hf]
        rw [ih _ _ _ t (by rw [rowFindTy_setField, hty])
              (fun kv hkv => hmis kv (List.mem_cons_of_mem _ hkv))]
        exact rowLookup_setField_ne row (titleCase k0) v0 n (fun e => hk e.symm)
      · simp [populateAux, hf]
        exact ih _ _ _ _ hty (fun kv hkv => hmis kv (List.mem_cons_of_mem _ hkv))

theorem populateAux_invalid_mem (r : Record) :
    ∀ (row : Row) (logs : List LogEv) (k : String) (v : Value),
    (k, v) ∈ r →
    rowFindTy row (titleCase k) = none →
    LogEv.invalidField k ∈ (populateAux row logs r).2 := by
  induction r with
  | nil => intro row logs k v hm; simp at hm
  | cons kv rest ih =>
    intro row logs k v hm hnone
    obtain ⟨k0, v0⟩ := kv
    rcases List.mem_cons.mp hm with he | hr
    · injection he with h1 h2
      subst h1
      have hf : ¬ hasField row (titleCase k) = true := by
        simp [hasField, hnone]
      simp [populateAux, hf]
      exact populateAux_logs_mem rest _ _ _ (by simp)
    · by_cases hf : hasField row (titleCase k0) = true
      · simp [populateAux, hf]
        exact ih _ _ _ _ hr (by rw [rowFindTy_setField, hnone])
      · simp [populateAux, hf]
        exact ih _ _ _ _ hr hnone

theorem findField_mapToStructWithTags (sample : Record) :
    (sample.map fun kv => titleCase kv.1).Nodup →
    ∀ (k : String) (v : Value), (k, v) ∈ sample →
    findField (mapToStructWithTags sample) (titleCase k) =
      some ⟨titleCase k, v.ty, mkTag k v.ty⟩ := by
  induction sample with
  | nil => intro _ k v hm; simp at hm
  | cons kv rest ih =>
    intro hnd k v hm
    obtain ⟨k0, v0⟩ := kv
    rw [List.map_cons] at hnd
    obtain ⟨hhead, htail⟩ := List.nodup_cons.mp hnd
    by_cases hk : titleCase k0 = titleCase k
    · have he : (k, v) = (k0, v0) := by
        rcases List.mem_cons.mp hm with he | hr
        · exact he
        · refine absurd ?_ hhead
          rw [hk]
          exact List.mem_map_of_mem (fun p : String × Value => titleCase p.1) hr
      injection he with hk1 hv1
      subst hk1; subst hv1
      simp [mapToStructWithTags, findField]
    · have hr : (k, v) ∈ rest := by
        rcases List.mem_cons.mp hm with he | hr
        · exact absurd (congrArg (fun p => titleCase p.1) he.symm) hk
        · exact hr
      simpa [mapToStructWithTags, findField, hk] using ih htail k v hr

/-! Helper lemmas about the write loop, the read loop and the flattener. -/

theorem writeLoop_noFail (o : WriterOracle) (h : ∀ j, o.writeFail j = none) :
    ∀ (rows : List Row) (i : Nat),
    writeLoop o false i rows = (wroteEvents i rows.length, none) := by
  intro rows
  induction rows with
  | nil => intro i; rfl
  | cons r rest ih => intro i; simp [writeLoop, h, wroteEvents, ih]

theorem writeLoop_firstFail (o : WriterOracle) (m : String) :
    ∀ (rows : List Row) (i k : Nat),
    (∀ j, j < k → o.writeFail (i + j) = none) →
    o.writeFail (i + k) = some m →
    k < rows.length →
    writeLoop o false i rows = (wroteEvents i k, some (.writeErr m)) := by
  intro rows
  induction rows with
  | nil => intro i k _ _ h3; simp at h3
  | cons r rest ih =>
    intro i k h1 h2 h3
    match k with
    | 0 =>
      have h2' : o.writeFail i = some m := by simpa using h2
      simp [writeLoop, h2', wroteEvents]
    | k + 1 =>
      have h0 : o.writeFail i = none := by simpa using h1 0 (Nat.zero_lt_succ k)
      have h1' : ∀ j, j < k → o.writeFail (i + 1 + j) = none := by
        intro j hj
        have := h1 (j + 1) (by omega)
        rwa [show i + (j + 1) = i + 1 + j by omega] at this
      have h2' : o.writeFail (i + 1 + k) = some m := by
        rwa [show i + (k + 1) = i + 1 + k by omega] at h2
      have h3' : k < rest.length := by simpa using Nat.lt_of_succ_lt_succ h3
      simp [writeLoop, h0, ih (i + 1) k h1' h2' h3', wroteEvents]

theorem writerClosed_not_mem_wroteEvents : ∀ (k i : Nat), Ev.writerClosed ∉ wroteEvents i k := by
  intro k
  induction k with
  | zero => intro i; simp [wroteEvents]
  | succ k ih => intro i; simp [wroteEvents, ih]

theorem fileClosed_not_mem_wroteEvents : ∀ (k i : Nat), Ev.fileClosed ∉ wroteEvents i k := by
  intro k
  induction k with
  | zero => intro i; simp [wroteEvents]
  | succ k ih => intro i; simp [wroteEvents, ih]

theorem readLoop_append (rs : List Row) (s : List ReadStep) :
    readLoop (rs.map ReadStep.row ++ s) = (rs ++ (readLoop s).1, (readLoop s).2) := by
  induction rs with
  | nil => simp [readLoop]
  | cons r rest ih => simp [readLoop, ih]

theorem readLoop_panicFree (s : List ReadStep) (h : streamNoPanic s = true) :
    (readLoop s).2.2 = false := by
  induction s with
  | nil => rfl
  | cons st rest ih =>
    cases st <;> simp_all [streamNoPanic, stepIsPanicFree, readLoop]

/-- A completed file read back: open succeeds, the reader decodes every
written row, end of stream stops the loop, each resource is closed once. -/
theorem ReadParquet_rows_eof (rows : List Row) :
    ReadParquet none false true (rows.map ReadStep.row ++ [ReadStep.eof]) =
      ⟨.ok, rows, 1, 1, false⟩ := by
  simp [ReadParquet, readLoop_append, readLoop]

theorem flattenFields_eq_map (fs : List (String × GoVal)) :
    flattenFields fs = fs.map fun kv => (kv.1, flattenMember kv.2) := by
  induction fs with
  | nil => rfl
  | cons kv rest ih =>
    obtain ⟨n, v⟩ := kv
    simp [flattenFields, ih]

/-- Successful `GenerateParquet` run: nonempty sample, no underlying write
failure.  The returned error is nil, the writer is closed and then the
file, and the durable content is the materialized row sequence exactly
when the discarded `writer.Close` call also succeeded. -/
theorem GenerateParquet_ok (o : WriterOracle) (kv : String × Value) (stail : Record)
    (rest : List Record) (h : ∀ j, o.writeFail j = none) :
    GenerateParquet o none ((kv :: stail) :: rest) =
      ⟨.ok,
       .fileCreated :: wroteEvents 0 (rest.length + 1) ++ [.writerClosed, .fileClosed],
       (((kv :: stail) :: rest).map fun r =>
         (populateStruct (mapToStructWithTags (kv :: stail)) r).2).flatten,
       if o.closeFail = none then
         some (((kv :: stail) :: rest).map fun r =>
           (populateStruct (mapToStructWithTags (kv :: stail)) r).1)
       else none⟩ := by
  simp [GenerateParquet, writePhase, mapToStructWithTags, writeLoop_noFail o h]

/-- Specialization of `GenerateParquet_ok` to the oracle with no write and
no close failure: the written file is durable and holds the materialized
rows. -/
theorem GenerateParquet_noFail (kv : String × Value) (stail : Record) (rest : List Record) :
    GenerateParquet noFailOracle none ((kv :: stail) :: rest) =
      ⟨.ok,
       .fileCreated :: wroteEvents 0 (rest.length + 1) ++ [.writerClosed, .fileClosed],
       (((kv :: stail) :: rest).map fun r =>
         (populateStruct (mapToStructWithTags (kv :: stail)) r).2).flatten,
       some (((kv :: stail) :: rest).map fun r =>
         (populateStruct (mapToStructWithTags (kv :: stail)) r).1)⟩ := by
  have h := GenerateParquet_ok noFailOracle kv stail rest (fun _ => rfl)
  simpa [noFailOracle] using h

/-! The claims. -/

/-- C1: for a non-empty batch of records that all share the sample record
field name set and value types (stated as a permutation of the key/type
lists) and whose normalized field names are pairwise distinct (the
condition under which the dynamic struct construction in reflect.StructOf
succeeds), reading the file written by `GenerateParquet` back with
`ReadParquet` succeeds, yields exactly as many rows as input records, and
every field value of every record is found unchanged in the corresponding
row under its normalized field name. -/
theorem C1_roundTrip (sample : Record) (rest : List Record)
    (hs : sample ≠ [])
    (hnd : (sample.map fun kv => titleCase kv.1).Nodup)
    (hshare : ∀ r ∈ sample :: rest,
      List.Perm (r.map fun kv => (kv.1, kv.2.ty)) (sample.map fun kv => (kv.1, kv.2.ty))) :
    (roundTrip (sample :: rest)).ret = RetVal.ok ∧
    (roundTrip (sample :: rest)).rows.length = (sample :: rest).length ∧
    List.Forall₂ (fun r row => ∀ k v, (k, v) ∈ r → rowLookup row (titleCase k) = some v)
      (sample :: rest) (roundTrip (sample :: rest)).rows := by
  match sample, hs with
  | kv0 :: stail, _ =>
    have hgen := GenerateParquet_noFail kv0 stail rest
    have hrt : roundTrip ((kv0 :: stail) :: rest) =
        ⟨.ok,
         ((kv0 :: stail) :: rest).map fun r =>
           (populateStruct (mapToStructWithTags (kv0 :: stail)) r).1,
         1, 1, false⟩ := by
      rw [roundTrip, hgen]
      exact ReadParquet_rows_eof _
    refine ⟨by rw [hrt], by rw [hrt]; simp, ?_⟩
    rw [hrt]
    rw [List.forall₂_map_right_iff]
    rw [List.forall₂_same]
    intro r hr k v hkv
    have perm := hshare r hr
    have permT := perm.map fun p : String × Ty => titleCase p.1
    simp only [List.map_map, Function.comp] at permT
    have hndr : (r.map fun kv => titleCase kv.1).Nodup := permT.symm.nodup hnd
    have hkT : (k, v.ty) ∈ (kv0 :: stail).map fun kv => (kv.1, kv.2.ty) :=
      perm.mem_iff.mp (List.mem_map_of_mem _ hkv)
    obtain ⟨kv', hkv', heq⟩ := List.mem_map.mp hkT
    obtain ⟨k', v'⟩ := kv'
    injection heq with hk' ht'
    have hk2 : k' = k := hk'
    have ht2 : v'.ty = v.ty := ht'
    have hff := findField_mapToStructWithTags (kv0 :: stail) hnd k' v' hkv'
    rw [hk2] at hff
    have hty : rowFindTy (zeroRow (mapToStructWithTags (kv0 :: stail))) (titleCase k) =
        some v.ty := by
      rw [rowFindTy_zeroRow, hff]
      simp [ht2]
    have hn : ∀ kv2 ∈ r, titleCase kv2.1 = titleCase k → kv2.2 = v := by
      intro kv2 hkv2 hfe
      have := List.inj_on_of_nodup_map hndr hkv2 hkv hfe
      rw [this]
    exact populateAux_lookup_set r _ [] k v hkv hn hty

/-- Concrete batch for the round-trip witness: the spec section 8
scenario, with the second record listing its fields in a different
order. -/
def c1Sample : Record := [("symbol", .vstr "BTC"), ("price", .vint 100)]

def c1Rest : List Record := [[("price", .vint 101), ("symbol", .vstr "BTC")]]

/-- Witness for C1 at a concrete two-record batch. -/
theorem C1_roundTrip_witness :
    (roundTrip (c1Sample :: c1Rest)).ret = RetVal.ok ∧
    (roundTrip (c1Sample :: c1Rest)).rows.length = (c1Sample :: c1Rest).length ∧
    List.Forall₂ (fun r row => ∀ k v, (k, v) ∈ r → rowLookup row (titleCase k) = some v)
      (c1Sample :: c1Rest) (roundTrip (c1Sample :: c1Rest)).rows :=
  C1_roundTrip c1Sample c1Rest (by decide) (by decide) (by decide)

/-- C2 counterexample: the claim says the column reader is released
exactly once on every control path including a mid-stream fault, but when
decoding panics the two closing defers of `ReadParquet` run while
unwinding and then the recover function, seeing a non-nil recover and a
non-nil reader, closes the reader a second time. -/
theorem C2_counterexample :
    (ReadParquet none false true [ReadStep.panic "decode fault"]).readerCloses = 2 := rfl

/-- C2 (amended): on every panic-free control path after the reader is
constructed (normal end of stream, decode error, invalid target slice)
the reader and the file handle are each released exactly once; on a
mid-decode panic the file handle is released once but the reader is
closed twice and the panic is swallowed instead of propagated; and when
the reader construction itself panics neither resource is released. -/
theorem C2_release (v : Bool) (stream : List ReadStep) (m : String)
    (h : streamNoPanic stream = true) :
    ((ReadParquet none false v stream).readerCloses = 1 ∧
     (ReadParquet none false v stream).fileCloses = 1) ∧
    ((ReadParquet none false true [ReadStep.panic m]).readerCloses = 2 ∧
     (ReadParquet none false true [ReadStep.panic m]).fileCloses = 1 ∧
     (ReadParquet none false true [ReadStep.panic m]).panicPropagated = false) ∧
    ((ReadParquet none true v stream).readerCloses = 0 ∧
     (ReadParquet none true v stream).fileCloses = 0) := by
  refine ⟨?_, ⟨rfl, rfl, rfl⟩, ?_⟩
  · cases v
    · exact ⟨rfl, rfl⟩
    · have hp := readLoop_panicFree stream h
      constructor <;> simp [ReadParquet, hp]
  · cases v <;> exact ⟨rfl, rfl⟩

/-- Witness for C2 (amended) on a one-row stream that ends normally. -/
theorem C2_release_witness :
    ((ReadParquet none false true [ReadStep.eof]).readerCloses = 1 ∧
     (ReadParquet none false true [ReadStep.eof]).fileCloses = 1) ∧
    ((ReadParquet none false true [ReadStep.panic "boom"]).readerCloses = 2 ∧
     (ReadParquet none false true [ReadStep.panic "boom"]).fileCloses = 1 ∧
     (ReadParquet none false true [ReadStep.panic "boom"]).panicPropagated = false) ∧
    ((ReadParquet none true true [ReadStep.eof]).readerCloses = 0 ∧
     (ReadParquet none true true [ReadStep.eof]).fileCloses = 0) :=
  C2_release true [ReadStep.eof] "boom" (by decide)

/-- A concrete one-field row used by the C3 counterexample. -/
def c3Row : Row := [⟨"A", .int, .vint 7⟩]

/-- C3 counterexample: the claim says a fault during decoding aborts the
read and the caller observes no successful result, but the deferred
recover in `ReadParquet` swallows the panic, so the call returns a nil
error together with the partially populated slice. -/
theorem C3_counterexample :
    (ReadParquet none false true [ReadStep.row c3Row, ReadStep.panic "decode fault"]).ret =
      RetVal.ok ∧
    (ReadParquet none false true [ReadStep.row c3Row, ReadStep.panic "decode fault"]).rows =
      [c3Row] := ⟨rfl, rfl⟩

/-- C3 (amended): the read loop appends one decoded row per step; end of
stream stops it and returns a nil error with all rows decoded so far; a
decode error other than end of stream aborts the loop and is returned to
the caller; but an unexpected fault during decoding is recovered, and the
call returns a nil error with the partial rows instead of surfacing the
fault. -/
theorem C3_loop (rs : List Row) (m : String) (tail : List ReadStep) :
    ((ReadParquet none false true (rs.map ReadStep.row ++ ReadStep.eof :: tail)).ret =
        RetVal.ok ∧
     (ReadParquet none false true (rs.map ReadStep.row ++ ReadStep.eof :: tail)).rows = rs) ∧
    ((ReadParquet none false true (rs.map ReadStep.row ++ ReadStep.err m :: tail)).ret =
        RetVal.error (Err.readErr m) ∧
     (ReadParquet none false true (rs.map ReadStep.row ++ ReadStep.err m :: tail)).rows = rs) ∧
    ((ReadParquet none false true (rs.map ReadStep.row ++ ReadStep.panic m :: tail)).ret =
        RetVal.ok ∧
     (ReadParquet none false true (rs.map ReadStep.row ++ ReadStep.panic m :: tail)).rows = rs) := by
  refine ⟨⟨?_, ?_⟩, ⟨?_, ?_⟩, ⟨?_, ?_⟩⟩ <;>
    simp [ReadParquet, readLoop_append, readLoop]

/-- C4 counterexample: the claim says that for a batch whose sample
record has no fields no output file is created, but `GenerateParquet`
calls `os.Create` before the first write can fail, so the destination is
created (truncated) and the schema failure arrives afterwards. -/
theorem C4_counterexample :
    (GenerateParquet noFailOracle none [[]]).ret = RetVal.error Err.emptySchema ∧
    Ev.fileCreated ∈ (GenerateParquet noFailOracle none [[]]).events := by
  exact ⟨rfl, by decide⟩

/-- C4 (amended): an empty batch is rejected with the empty-data error
before any file is touched; a non-empty batch whose sample record has no
fields also fails (spec-modelled schema error of the external writer, see
`writeLoop`), but only after the output file has already been created. -/
theorem C4_emptyBatch (o : WriterOracle) (cf : Option String) (rest : List Record) :
    ((GenerateParquet o cf []).ret = RetVal.error Err.emptyData ∧
     (GenerateParquet o cf []).events = []) ∧
    ((GenerateParquet o none (([] : Record) :: rest)).ret = RetVal.error Err.emptySchema ∧
     (GenerateParquet o none (([] : Record) :: rest)).events = [Ev.fileCreated]) := by
  refine ⟨⟨rfl, rfl⟩, ?_, ?_⟩ <;> simp [GenerateParquet, writePhase, mapToStructWithTags, writeLoop]

/-- Every log event the materialization loop emits beyond the incoming
ones is an invalid-field report for some record key whose normalized name
has no member in the row type. -/
theorem populateAux_logs_from (r : Record) :
    ∀ (row : Row) (logs : List LogEv) (e : LogEv),
    e ∈ (populateAux row logs r).2 →
    e ∈ logs ∨ ∃ kv ∈ r, e = LogEv.invalidField kv.1 ∧
      rowFindTy row (titleCase kv.1) = none := by
  induction r with
  | nil => intro row logs e he; left; simpa [populateAux] using he
  | cons kv0 rest ih =>
    intro row logs e he
    obtain ⟨k0, v0⟩ := kv0
    by_cases hf : hasField row (titleCase k0) = true
    · rw [populateAux, if_pos hf] at he
      rcases ih _ _ _ he with hl | ⟨kv, hkv, he2, hn⟩
      · exact Or.inl hl
      · refine Or.inr ⟨kv, List.mem_cons_of_mem _ hkv, he2, ?_⟩
        rwa [rowFindTy_setField] at hn
    · rw [populateAux, if_neg hf] at he
      have hnone : rowFindTy row (titleCase k0) = none := by
        rcases ho : rowFindTy row (titleCase k0) with _ | t
        · rfl
        · exact absurd (by simp [hasField, ho]) hf
      rcases ih _ _ _ he with hl | ⟨kv, hkv, he2, hn⟩
      · rcases List.mem_append.mp hl with h0 | h1
        · exact Or.inl h0
        · refine Or.inr ⟨(k0, v0), List.mem_cons_self _ _, ?_, hnone⟩
          simpa using h1
      · exact Or.inr ⟨kv, List.mem_cons_of_mem _ hkv, he2, hn⟩

/-- Concrete record pair for the C5 counterexample: the sample declares
field `a` as an integer, the second record carries a string there. -/
def c5Batch : List Record := [[("a", Value.vint 0)], [("a", Value.vstr "x")]]

/-- C5 counterexample: the claim says a type mismatch on a known field is
reported non-fatally, but the type-mismatch branch of the
`GenerateParquet` materialization loop prints nothing: over this batch
the whole run emits no log at all, while the mismatched row field does
stay at its zero value and the batch completes without error. -/
theorem C5_counterexample :
    (GenerateParquet noFailOracle none c5Batch).logs = [] ∧
    (GenerateParquet noFailOracle none c5Batch).ret = RetVal.ok ∧
    rowLookup (populateStruct (mapToStructWithTags [("a", Value.vint 0)])
      [("a", Value.vstr "x")]).1 "A" = some (Value.vint 0) := by
  refine ⟨by decide, by decide, by decide⟩

/-- C5 (amended): a record field whose normalized name exists in the row
type with a different declared type leaves that row member at its zero
value and neither aborts the batch nor produces an error; the mismatch is
skipped silently, with no report (the loop only reports unknown field
names). -/
theorem C5_mismatch (sample r : Record) (k : String) (v : Value) (t : Ty)
    (hmem : (k, v) ∈ r)
    (hnd : (r.map fun kv => titleCase kv.1).Nodup)
    (hty : rowFindTy (zeroRow (mapToStructWithTags sample)) (titleCase k) = some t)
    (hne : v.ty ≠ t) :
    rowLookup (populateStruct (mapToStructWithTags sample) r).1 (titleCase k) =
      some (zeroValue t) ∧
    LogEv.invalidField k ∉ (populateStruct (mapToStructWithTags sample) r).2 ∧
    ∀ rest : List Record, sample ≠ [] →
      (GenerateParquet noFailOracle none (sample :: rest)).ret = RetVal.ok := by
  have hmis : ∀ kv ∈ r, titleCase kv.1 = titleCase k → Value.ty kv.2 ≠ t := by
    intro kv hkv hfe
    have he := List.inj_on_of_nodup_map hnd hkv hmem hfe
    rw [he]
    exact hne
  refine ⟨?_, ?_, ?_⟩
  · have hfr := populateAux_lookup_frozen r (zeroRow (mapToStructWithTags sample)) [] _ t hty hmis
    rw [populateStruct, hfr, rowLookup_zeroRow]
    rw [rowFindTy_zeroRow] at hty
    cases hff : findField (mapToStructWithTags sample) (titleCase k) with
    | none => rw [hff] at hty; simp at hty
    | some f =>
      rw [hff] at hty
      simp at hty ⊢
      rw [hty]
  · intro habs
    rcases populateAux_logs_from r _ [] _ habs with h0 | ⟨kv, _, he2, hnone⟩
    · simp at h0
    · injection he2 with hk0
      rw [← hk0] at hnone
      rw [hnone] at hty
      exact Option.noConfusion hty
  · intro rest hs
    match sample, hs with
    | kv0 :: stail, _ => rw [GenerateParquet_noFail]

/-- Witness for C5 (amended): sample declares `a` as integer, the record
carries a string at `a`; the materialized member `A` stays zero. -/
theorem C5_mismatch_witness :
    rowLookup (populateStruct (mapToStructWithTags [("a", Value.vint 0)])
      [("a", Value.vstr "x")]).1 (titleCase "a") = some (zeroValue Ty.int) ∧
    LogEv.invalidField "a" ∉ (populateStruct (mapToStructWithTags [("a", Value.vint 0)])
      [("a", Value.vstr "x")]).2 ∧
    ∀ rest : List Record, [("a", Value.vint 0)] ≠ ([] : Record) →
      (GenerateParquet noFailOracle none ([("a", Value.vint 0)] :: rest)).ret = RetVal.ok :=
  C5_mismatch [("a", Value.vint 0)] [("a", Value.vstr "x")] "a" (Value.vstr "x") Ty.int
    (by decide) (by decide) (by decide) (by decide)

/-- C6 counterexample: the claim says materializing a malformed record
never raises a fatal error, but the cited `MapsToStructs` looks keys up
raw (without title casing) and calls `Set` unguarded, so even a record
with exactly the sample shape panics: the inferred member is `A` while
the key is `a`, `FieldByName` misses, and `Set` on the zero value
faults. -/
theorem C6_counterexample :
    MapsToStructs [("a", Value.vint 0)] [[("a", Value.vint 1)]] =
      Except.error (ReflectPanic.setOnZeroValue "a") := rfl

/-- C6 (amended): in the `GenerateParquet` materialization loop a key
whose normalized name has no member in the row type is reported as an
invalid field and ignored (the row holds nothing under that name), and
the batch still completes without error; `MapsToStructs`, by contrast,
faults on any key whose raw name is not a member. -/
theorem C6_unknownField (sample r : Record) (k : String) (v : Value)
    (hmem : (k, v) ∈ r)
    (hnone : rowFindTy (zeroRow (mapToStructWithTags sample)) (titleCase k) = none) :
    LogEv.invalidField k ∈ (populateStruct (mapToStructWithTags sample) r).2 ∧
    rowLookup (populateStruct (mapToStructWithTags sample) r).1 (titleCase k) = none ∧
    ∀ rest : List Record, sample ≠ [] →
      (GenerateParquet noFailOracle none (sample :: rest)).ret = RetVal.ok := by
  refine ⟨populateAux_invalid_mem r _ [] k v hmem hnone, ?_, ?_⟩
  · apply rowLookup_eq_none
    rw [populateStruct, populateAux_findTy]
    exact hnone
  · intro rest hs
    match sample, hs with
    | kv0 :: stail, _ => rw [GenerateParquet_noFail]

/-- Witness for C6 (amended): key `b` has no member in a row type
inferred from a sample with single field `a`. -/
theorem C6_unknownField_witness :
    LogEv.invalidField "b" ∈ (populateStruct (mapToStructWithTags [("a", Value.vint 0)])
      [("b", Value.vint 1)]).2 ∧
    rowLookup (populateStruct (mapToStructWithTags [("a", Value.vint 0)])
      [("b", Value.vint 1)]).1 (titleCase "b") = none ∧
    ∀ rest : List Record, [("a", Value.vint 0)] ≠ ([] : Record) →
      (GenerateParquet noFailOracle none ([("a", Value.vint 0)] :: rest)).ret = RetVal.ok :=
  C6_unknownField [("a", Value.vint 0)] [("b", Value.vint 1)] "b" (Value.vint 1)
    (by decide) (by decide)

/-- Write-loop failure case of the write phase. -/
theorem writePhase_fail (o : WriterOracle) (rows : List Row) (logs : List LogEv)
    (evs : List Ev) (e : Err)
    (hwl : writeLoop o false 0 rows = (evs, some e)) :
    writePhase o false rows logs = ⟨.error e, .fileCreated :: evs, logs, none⟩ := by
  unfold writePhase
  rw [hwl]

/-- The call of the write phase inside `GenerateParquet` for a nonempty
sample record and a successful `os.Create`. -/
theorem GenerateParquet_consEq (o : WriterOracle) (kv : String × Value) (stail : Record)
    (rest : List Record) :
    GenerateParquet o none ((kv :: stail) :: rest) =
      writePhase o false
        (((kv :: stail) :: rest).map fun r =>
          (populateStruct (mapToStructWithTags (kv :: stail)) r).1)
        ((((kv :: stail) :: rest).map fun r =>
          (populateStruct (mapToStructWithTags (kv :: stail)) r).2).flatten) := rfl

/-- Oracle whose row writes succeed while the discarded `writer.Close`
call fails. -/
def closeFailOracle : WriterOracle := ⟨fun _ => none, some "flush error"⟩

/-- C7 counterexample: the claim says any underlying write or flush
failure is propagated verbatim, but `GenerateParquet` discards the
results of `writer.Close()` and `f.Close()`, so a flush failure at close
is silently swallowed and the call still returns a nil error. -/
theorem C7_counterexample :
    closeFailOracle.closeFail = some "flush error" ∧
    (GenerateParquet closeFailOracle none [[("a", Value.vint 1)]]).ret = RetVal.ok :=
  ⟨rfl, rfl⟩

/-- C7 (amended): a write failure on any row aborts the run and surfaces
the underlying error verbatim, with neither the writer nor the file
closed afterwards; on a run with no write failure the writer is closed
first and the file handle second, in that order at the end of the trace,
and the call returns a nil error even when the discarded close itself
failed. -/
theorem C7_writeAbort (o : WriterOracle) (kv : String × Value) (stail : Record)
    (rest : List Record) :
    (∀ (k : Nat) (m : String),
      (∀ j, j < k → o.writeFail j = none) →
      o.writeFail k = some m →
      k < ((kv :: stail) :: rest).length →
      (GenerateParquet o none ((kv :: stail) :: rest)).ret = RetVal.error (Err.writeErr m) ∧
      (GenerateParquet o none ((kv :: stail) :: rest)).events =
        Ev.fileCreated :: wroteEvents 0 k ∧
      Ev.writerClosed ∉ (GenerateParquet o none ((kv :: stail) :: rest)).events ∧
      Ev.fileClosed ∉ (GenerateParquet o none ((kv :: stail) :: rest)).events) ∧
    ((∀ j, o.writeFail j = none) →
      (GenerateParquet o none ((kv :: stail) :: rest)).ret = RetVal.ok ∧
      (GenerateParquet o none ((kv :: stail) :: rest)).events =
        Ev.fileCreated :: wroteEvents 0 (rest.length + 1) ++ [Ev.writerClosed, Ev.fileClosed]) := by
  constructor
  · intro k m h1 h2 h3
    have h1' : ∀ j, j < k → o.writeFail (0 + j) = none := by simpa using h1
    have h2' : o.writeFail (0 + k) = some m := by simpa using h2
    have h3' : k < (((kv :: stail) :: rest).map fun r =>
        (populateStruct (mapToStructWithTags (kv :: stail)) r).1).length := by
      simpa using h3
    have hwl := writeLoop_firstFail o m _ 0 k h1' h2' h3'
    rw [GenerateParquet_consEq, writePhase_fail o _ _ _ _ hwl]
    refine ⟨rfl, rfl, ?_, ?_⟩
    · simp [writerClosed_not_mem_wroteEvents]
    · simp [fileClosed_not_mem_wroteEvents]
  · intro h
    rw [GenerateParquet_ok o kv stail rest h]
    exact ⟨rfl, rfl⟩

/-- Oracle failing on the second row write. -/
def failAt1Oracle : WriterOracle := ⟨fun i => if i = 1 then some "disk full" else none, none⟩

/-- Witness for C7 (amended) on a three-record batch whose second row
write fails. -/
theorem C7_writeAbort_witness :
    ((GenerateParquet failAt1Oracle none
        [[("a", Value.vint 0)], [("a", Value.vint 1)], [("a", Value.vint 2)]]).ret =
      RetVal.error (Err.writeErr "disk full") ∧
     (GenerateParquet failAt1Oracle none
        [[("a", Value.vint 0)], [("a", Value.vint 1)], [("a", Value.vint 2)]]).events =
      Ev.fileCreated :: wroteEvents 0 1 ∧
     Ev.writerClosed ∉ (GenerateParquet failAt1Oracle none
        [[("a", Value.vint 0)], [("a", Value.vint 1)], [("a", Value.vint 2)]]).events ∧
     Ev.fileClosed ∉ (GenerateParquet failAt1Oracle none
        [[("a", Value.vint 0)], [("a", Value.vint 1)], [("a", Value.vint 2)]]).events) ∧
    ((GenerateParquet noFailOracle none
        [[("a", Value.vint 0)], [("a", Value.vint 1)], [("a", Value.vint 2)]]).ret =
      RetVal.ok ∧
     (GenerateParquet noFailOracle none
        [[("a", Value.vint 0)], [("a", Value.vint 1)], [("a", Value.vint 2)]]).events =
      Ev.fileCreated :: wroteEvents 0 ([[("a", Value.vint 1)], [("a", Value.vint 2)]].length + 1)
        ++ [Ev.writerClosed, Ev.fileClosed]) :=
  ⟨(C7_writeAbort failAt1Oracle ("a", Value.vint 0) [] [[("a", Value.vint 1)], [("a", Value.vint 2)]]).1
      1 "disk full" (by decide) (by decide) (by decide),
   (C7_writeAbort noFailOracle ("a", Value.vint 0) [] [[("a", Value.vint 1)], [("a", Value.vint 2)]]).2
      (fun _ => rfl)⟩

/-- C8: schema inference records, for each field of the sample record,
the concrete runtime type of its value, normalizes the field name to the
title-cased member name, and attaches the serialization tag combining the
original key, the resolved type name and the fixed PLAIN_DICTIONARY
encoding hint; under the distinct-normalized-names condition (exactly
when the dynamic struct construction in reflect.StructOf does not fault
on a duplicate member) looking a record key up by its normalized name
locates the unique field inferred from that key. -/
theorem C8_schema (sample : Record)
    (hnd : (sample.map fun kv => titleCase kv.1).Nodup) :
    ((mapToStructWithTags sample).map StructField.name =
      sample.map fun kv => titleCase kv.1) ∧
    (∀ k v, (k, v) ∈ sample →
      findField (mapToStructWithTags sample) (titleCase k) =
        some ⟨titleCase k, v.ty,
          "parquet:\"name=" ++ k ++ ", type=" ++ tyName v.ty ++
            ", encoding=PLAIN_DICTIONARY\" json:\"" ++ k ++ "\""⟩) := by
  constructor
  · simp [mapToStructWithTags]
  · intro k v hm
    exact findField_mapToStructWithTags sample hnd k v hm

/-- Witness for C8 on a two-field sample record. -/
theorem C8_schema_witness :
    ((mapToStructWithTags [("symbol", Value.vstr "BTC"), ("ts", Value.vtime 0)]).map
        StructField.name =
      [("symbol", Value.vstr "BTC"), ("ts", Value.vtime 0)].map fun kv => titleCase kv.1) ∧
    (∀ k v, (k, v) ∈ ([("symbol", Value.vstr "BTC"), ("ts", Value.vtime 0)] : Record) →
      findField (mapToStructWithTags [("symbol", Value.vstr "BTC"), ("ts", Value.vtime 0)])
          (titleCase k) =
        some ⟨titleCase k, v.ty,
          "parquet:\"name=" ++ k ++ ", type=" ++ tyName v.ty ++
            ", encoding=PLAIN_DICTIONARY\" json:\"" ++ k ++ "\""⟩) :=
  C8_schema [("symbol", Value.vstr "BTC"), ("ts", Value.vtime 0)] (by decide)

/-- C9: `StructToMap` dereferences a pointer argument, turns each member
declared name into a record key, recursively flattens every member that
is itself a struct into a nested record, stores every other member value
opaquely, and terminates on every member tree (it is a total structural
recursion in the model); the produced record is a fresh list built member
by member from the source fields. -/
theorem C9_StructToMap (fs : List (String × GoVal)) :
    StructToMap (GoVal.ptr (some (GoVal.strct fs))) = StructToMap (GoVal.strct fs) ∧
    StructToMap (GoVal.strct fs) = Except.ok (flattenFields fs) ∧
    (flattenFields fs).map Prod.fst = fs.map Prod.fst ∧
    (∀ n gs, (n, GoVal.strct gs) ∈ fs →
      (n, MVal.record (flattenFields gs)) ∈ flattenFields fs ∧
      StructToMap (GoVal.strct gs) = Except.ok (flattenFields gs)) ∧
    (∀ n w, (n, w) ∈ fs → (∀ gs, w ≠ GoVal.strct gs) →
      (n, MVal.raw w) ∈ flattenFields fs) := by
  refine ⟨rfl, rfl, ?_, ?_, ?_⟩
  · rw [flattenFields_eq_map]
    simp
  · intro n gs hm
    refine ⟨?_, rfl⟩
    rw [flattenFields_eq_map]
    have hmm := List.mem_map_of_mem (fun kv : String × GoVal => (kv.1, flattenMember kv.2)) hm
    simpa [flattenMember] using hmm
  · intro n w hm hne
    rw [flattenFields_eq_map]
    have hmm := List.mem_map_of_mem (fun kv : String × GoVal => (kv.1, flattenMember kv.2)) hm
    have hfm : flattenMember w = MVal.raw w := by
      cases w with
      | strct gs => exact absurd rfl (hne gs)
      | scalar v => rfl
      | ptr p => rfl
    simpa [hfm] using hmm

/-- Nested struct member for the C9 witness. -/
def c9Inner : List (String × GoVal) := [("X", GoVal.scalar (Value.vint 1))]

/-- Field list for the C9 witness: one struct member, one scalar member. -/
def c9Fields : List (String × GoVal) :=
  [("Inner", GoVal.strct c9Inner), ("Count", GoVal.scalar (Value.vint 2))]

/-- Witness for C9 on a struct with one nested struct member and one
scalar member, reached through a pointer. -/
theorem C9_StructToMap_witness :
    StructToMap (GoVal.ptr (some (GoVal.strct c9Fields))) = StructToMap (GoVal.strct c9Fields) ∧
    ("Inner", MVal.record (flattenFields c9Inner)) ∈ flattenFields c9Fields ∧
    ("Count", MVal.raw (GoVal.scalar (Value.vint 2))) ∈ flattenFields c9Fields :=
  ⟨(C9_StructToMap c9Fields).1,
   ((C9_StructToMap c9Fields).2.2.2.1 "Inner" c9Inner (List.mem_cons_self _ _)).1,
   (C9_StructToMap c9Fields).2.2.2.2 "Count" (GoVal.scalar (Value.vint 2))
     (List.mem_cons_of_mem _ (List.mem_cons_self _ _)) (fun _ h => nomatch h)⟩

/-- C10: `StructToMap` is not total over arbitrary values: a scalar
argument faults in `NumField`, and a nil struct pointer faults when
`Type` is called on the zero `reflect.Value`; the Go signature has no
error return, so in both cases the caller gets a runtime fault instead of
a record. -/
theorem C10_partiality :
    StructToMap (GoVal.scalar (Value.vint 3)) =
      Except.error ReflectPanic.numFieldOnNonStruct ∧
    StructToMap (GoVal.ptr none) = Except.error ReflectPanic.typeOnZeroValue :=
  ⟨rfl, rfl⟩

end Util
